import Mathlib

/-!
Verification development for the eve-arbitrary market-arbitrage system.

The development shallowly embeds the two source files of the repository:

* `src/data/fetch_data.py` — the ingestion pipeline: reference-data lookup
  helpers backed by an external API, the order cache store
  (`load_cached_orders`, `save_orders_to_cache`) and the paginated fetch
  loop (`fetch_all_orders`).
* `src/app.py` — the arbitrage engine (`find_arbitrage`) and its local
  reference lookups (`get_station_data`, `get_item_name`).

Modelling conventions:

* Mongo collections are embedded as Lean lists of documents in storage
  order; `find` is `List.filter`, `find_one` is `List.find?`,
  `update_one` with `upsert=True` replaces the first matching document or
  appends a new one, `delete_many` filters documents out.
* Timestamps are integers counting milliseconds; a cutoff of
  `CACHE_MINUTES` minutes before `now` is `now - CACHE_MINUTES * 60000`.
* Python floats are idealised as exact rationals; `round(x, 2)` is
  modelled as round-half-to-even at two decimals.
* Network calls are embedded as explicit function arguments (page number
  to response, id to response); the unbounded `while True` page loop is
  embedded with explicit fuel, `none` meaning the loop is still running
  after that many iterations.
* A Python `try/except` around a computation that can only fail on a
  numeric error is embedded as an `Option` result, `none` on the error
  condition.
-/

/-- One market order document as stored in the `orders` Mongo collection. -/
structure StoredOrder where
  order_id : Int
  region_id : Int
  location_id : Int
  type_id : Int
  is_buy_order : Bool
  price : ℚ
  volume_remain : Nat
  last_updated : Int
  deriving DecidableEq

/-- One raw order record as returned by a page of the external market API
(before `region_id` and `last_updated` are stamped onto it). -/
structure RawOrder where
  order_id : Int
  location_id : Int
  type_id : Int
  is_buy_order : Bool
  price : ℚ
  volume_remain : Nat
  deriving DecidableEq

/-- One document of the `stations` Mongo collection. -/
structure StationDoc where
  station_id : Int
  name : String
  security : Option ℚ
  deriving DecidableEq

/-- One document of the `items` Mongo collection. -/
structure ItemDoc where
  type_id : Int
  name : String
  deriving DecidableEq

/-- The value of the `security` entry of the dict returned by
`app.get_station_data`: a stored numeric level, a stored null, or the
literal placeholder string `Unknown`. -/
inductive SecField where
  | level (q : ℚ)
  | null
  | unknown
  deriving DecidableEq

/-- The dict returned by `app.get_station_data` (its display fields). -/
structure StationView where
  name : String
  security : SecField
  deriving DecidableEq

/-- The result dict appended by `app.find_arbitrage` for one commodity.
The source stores `margin` formatted as a percent string; the field here
holds the numeric margin value being formatted. -/
structure Opportunity where
  item : String
  source_station : StationView
  dest_station : StationView
  buy_price : ℚ
  sell_price : ℚ
  volume : Nat
  unit_profit : ℚ
  total_profit : ℚ
  margin : ℚ
  isk_per_minute : ℚ
  deriving DecidableEq

/-- Floor of a rational. -/
def ratFloor (q : ℚ) : Int := ⌊q⌋

/-- Round a rational to the nearest integer, ties to even (Python round). -/
def roundHalfEven (q : ℚ) : Int :=
  let f := ratFloor q
  let r := q - (f : ℚ)
  if r < 1 / 2 then f
  else if 1 / 2 < r then f + 1
  else if f % 2 = 0 then f else f + 1

/-- Python `round(x, 2)` on the idealised rational value. -/
def round2 (q : ℚ) : ℚ :=
  ((roundHalfEven (q * 100) : ℚ)) / 100

namespace FetchData

/-- `CACHE_MINUTES` of `src/data/fetch_data.py`. -/
def CACHE_MINUTES : Int := 30

/-- `cutoff = datetime.utcnow() - timedelta(minutes=CACHE_MINUTES)`. -/
def cutoff (now : Int) : Int := now - CACHE_MINUTES * 60000

/-- `load_cached_orders` of `fetch_data.py`: the fresh orders of a region,
or `none` when that list is empty (`orders if orders else None`). -/
def load_cached_orders (store : List StoredOrder) (region_id now : Int) :
    Option (List StoredOrder) :=
  let orders := store.filter fun o =>
    decide (o.region_id = region_id) && decide (cutoff now ≤ o.last_updated)
  if orders.isEmpty then none else some orders

/-- Stamping `order["region_id"] = region_id; order["last_updated"] = now`
onto a raw order before the upsert in `save_orders_to_cache`. -/
def stampOrder (region_id now : Int) (o : RawOrder) : StoredOrder :=
  { order_id := o.order_id
    region_id := region_id
    location_id := o.location_id
    type_id := o.type_id
    is_buy_order := o.is_buy_order
    price := o.price
    volume_remain := o.volume_remain
    last_updated := now }

/-- Mongo `update_one({"order_id": so.order_id}, {"$set": so}, upsert=True)`:
replace the first document with that order id, or append the document. -/
def updateFirst : List StoredOrder → StoredOrder → List StoredOrder
  | [], so => [so]
  | d :: ds, so =>
      if d.order_id = so.order_id then so :: ds else d :: updateFirst ds so

/-- `save_orders_to_cache` of `fetch_data.py`: delete the stored orders of
the region whose ids are absent from the incoming list, then upsert every
incoming order stamped with the region id and the current time. -/
def save_orders_to_cache (region_id : Int) (orders : List RawOrder)
    (now : Int) (store : List StoredOrder) : List StoredOrder :=
  let order_ids : List Int := orders.map fun o => o.order_id
  let existing_order_ids : List Int :=
    (store.filter fun o => decide (o.region_id = region_id)).map fun o => o.order_id
  let outdated_order_ids : List Int :=
    existing_order_ids.filter fun i => decide (i ∉ order_ids)
  let store1 := store.filter fun o => decide (o.order_id ∉ outdated_order_ids)
  (orders.map (stampOrder region_id now)).foldl updateFirst store1

/-- One response of `GET /markets/{region_id}/orders/?page=n`: HTTP status,
decoded body, and the optional `X-Pages` header. -/
structure PageResponse where
  status : Nat
  batch : List RawOrder
  xPages : Option Nat
  deriving DecidableEq

/-- Why the `while True` page loop of `fetch_all_orders` stopped. -/
inductive StopReason where
  | fetchFail
  | emptyBatch
  | reachedTotal
  | noTotal
  deriving DecidableEq

/-- The page loop of `fetch_all_orders`, with explicit fuel; `none` means
the loop is still running after `fuel` iterations.  Returns the
accumulated orders, the reason the loop stopped, and the page at which it
stopped. -/
def fetchLoop (api : Nat → PageResponse) :
    Nat → Nat → List RawOrder → Option (List RawOrder × StopReason × Nat)
  | 0, _, _ => none
  | fuel + 1, page, orders =>
      let r := api page
      if r.status ≠ 200 then some (orders, StopReason.fetchFail, page)
      else if r.batch.isEmpty then some (orders, StopReason.emptyBatch, page)
      else
        let orders2 := orders ++ r.batch
        match r.xPages with
        | some total =>
            if total ≤ page then some (orders2, StopReason.reachedTotal, page)
            else fetchLoop api fuel (page + 1) orders2
        | none => some (orders2, StopReason.noTotal, page)

/-- What `fetch_all_orders` returns: either the cached documents or the
raw orders accumulated from the live fetch. -/
inductive FetchResult where
  | fromCache (os : List StoredOrder)
  | fetched (os : List RawOrder)
  deriving DecidableEq

/-- `fetch_all_orders` of `fetch_data.py`: serve from cache when fresh,
otherwise run the page loop and then unconditionally call
`save_orders_to_cache` on whatever the loop accumulated.  Returns the
orders together with the resulting store state. -/
def fetch_all_orders (fuel : Nat) (api : Nat → PageResponse)
    (region_id now : Int) (store : List StoredOrder) :
    Option (FetchResult × List StoredOrder) :=
  match load_cached_orders store region_id now with
  | some cached => some (FetchResult.fromCache cached, store)
  | none =>
      match fetchLoop api fuel 1 [] with
      | none => none
      | some (orders, _, _) =>
          some (FetchResult.fetched orders,
                save_orders_to_cache region_id orders now store)

/-- The condition under which the page loop advances from page `p` to
page `p + 1`: success status, non-empty batch, and an advertised total
strictly beyond `p`. -/
def contCond (api : Nat → PageResponse) (p : Nat) : Prop :=
  (api p).status = 200 ∧ (api p).batch ≠ [] ∧
    ∃ t, (api p).xPages = some t ∧ p < t

/-- Concatenation of the batches of `n` consecutive pages starting at
page `k`. -/
def batchesRange (api : Nat → PageResponse) : Nat → Nat → List RawOrder
  | _, 0 => []
  | k, n + 1 => (api k).batch ++ batchesRange api (k + 1) n

/-- The orders the loop has accumulated when it stops at page `n`: the
batches of pages `1..n-1`, plus the batch of page `n` itself when page
`n` was fetched successfully and non-empty. -/
def stopAcc (api : Nat → PageResponse) (n : Nat) : List RawOrder :=
  if (api n).status = 200 ∧ (api n).batch ≠ [] then batchesRange api 1 n
  else batchesRange api 1 (n - 1)

/-- The reason the loop reports when it stops at page `n` (meaningful at
a page where `contCond` fails). -/
def stopReason (api : Nat → PageResponse) (n : Nat) : StopReason :=
  if (api n).status ≠ 200 then StopReason.fetchFail
  else if (api n).batch.isEmpty then StopReason.emptyBatch
  else
    match (api n).xPages with
    | some _ => StopReason.reachedTotal
    | none => StopReason.noTotal

/-- One response of the external reference API (`/universe/stations/{id}`
or `/universe/types/{id}`): status and the optional fields read from the
JSON body. -/
structure RefResp where
  status : Nat
  name : Option String
  security : Option ℚ
  deriving DecidableEq

/-- Mongo `update_one({"station_id": id}, {"$set": {name, security}},
upsert=True)` on the stations collection. -/
def stationUpsert : List StationDoc → Int → String → Option ℚ → List StationDoc
  | [], station_id, name, sec => [⟨station_id, name, sec⟩]
  | d :: ds, station_id, name, sec =>
      if d.station_id = station_id then ⟨d.station_id, name, sec⟩ :: ds
      else d :: stationUpsert ds station_id name sec

/-- Mongo `update_one({"type_id": id}, {"$set": {name}}, upsert=True)` on
the items collection. -/
def itemUpsert : List ItemDoc → Int → String → List ItemDoc
  | [], type_id, name => [⟨type_id, name⟩]
  | d :: ds, type_id, name =>
      if d.type_id = type_id then ⟨d.type_id, name⟩ :: ds
      else d :: itemUpsert ds type_id name

/-- `get_station_info` of `fetch_data.py`.  Returns the `(name, security)`
pair, the stations collection afterwards, and whether the external API
was consulted. -/
def get_station_info (api : Int → RefResp) (stations : List StationDoc)
    (station_id : Int) : (String × Option ℚ) × List StationDoc × Bool :=
  match stations.find? (fun d => decide (d.station_id = station_id)) with
  | some cached => ((cached.name, cached.security), stations, false)
  | none =>
      let r := api station_id
      if r.status = 200 then
        let name := r.name.getD (toString station_id)
        ((name, r.security), stationUpsert stations station_id name r.security, true)
      else ((toString station_id, none), stations, true)

/-- `get_item_name` of `fetch_data.py`.  Returns the name, the items
collection afterwards, and whether the external API was consulted. -/
def get_item_name (api : Int → RefResp) (items : List ItemDoc)
    (type_id : Int) : String × List ItemDoc × Bool :=
  match items.find? (fun d => decide (d.type_id = type_id)) with
  | some cached => (cached.name, items, false)
  | none =>
      let r := api type_id
      if r.status = 200 then
        let name := r.name.getD ("Type " ++ toString type_id)
        (name, itemUpsert items type_id name, true)
      else ("Type " ++ toString type_id, items, true)

end FetchData

namespace App

/-- `BROKER_FEE` of `src/app.py`. -/
def BROKER_FEE : ℚ := 3 / 100

/-- `SALES_TAX` of `src/app.py`. -/
def SALES_TAX : ℚ := 15 / 1000

/-- `CACHE_MINUTES` of `src/app.py`. -/
def CACHE_MINUTES : Int := 10000

/-- `HAULING_TIME_MINUTES` of `src/app.py`. -/
def HAULING_TIME_MINUTES : ℚ := 15

/-- `cutoff = datetime.utcnow() - timedelta(minutes=CACHE_MINUTES)`. -/
def cutoff (now : Int) : Int := now - CACHE_MINUTES * 60000

/-- `get_station_data` of `app.py`: the cached document, or the
placeholder dict with the id stringified and security `Unknown`. -/
def get_station_data (stations : List StationDoc) (station_id : Int) : StationView :=
  match stations.find? (fun d => decide (d.station_id = station_id)) with
  | some d =>
      { name := d.name
        security := match d.security with
          | some q => SecField.level q
          | none => SecField.null }
  | none => { name := toString station_id, security := SecField.unknown }

/-- `get_item_name` of `app.py`: the cached name, or the placeholder. -/
def get_item_name (items : List ItemDoc) (type_id : Int) : String :=
  match items.find? (fun d => decide (d.type_id = type_id)) with
  | some d => d.name
  | none => "Type " ++ toString type_id

/-- The initial emptiness-check query of `find_arbitrage`: freshness, and
a location restriction built with `is not None` tests. -/
def initialMatches (c : Int) (source_station dest_station : Option Int)
    (o : StoredOrder) : Bool :=
  decide (c ≤ o.last_updated) &&
    match source_station, dest_station with
    | some s, some d => decide (o.location_id = s) || decide (o.location_id = d)
    | some s, none => decide (o.location_id = s)
    | none, some d => decide (o.location_id = d)
    | none, none => true

/-- The sell-side query of `find_arbitrage`: the location restriction is
added under Python truthiness (`if source_station:`), so a filter value
of `0` adds no restriction. -/
def sellMatches (c : Int) (source_station : Option Int) (o : StoredOrder) : Bool :=
  !o.is_buy_order && decide (c ≤ o.last_updated) &&
    match source_station with
    | some s => if s = 0 then true else decide (o.location_id = s)
    | none => true

/-- The buy-side query of `find_arbitrage`, truthiness as in `sellMatches`. -/
def buyMatches (c : Int) (dest_station : Option Int) (o : StoredOrder) : Bool :=
  o.is_buy_order && decide (c ≤ o.last_updated) &&
    match dest_station with
    | some d => if d = 0 then true else decide (o.location_id = d)
    | none => true

/-- Python `min(orders, key=lambda x: x["price"])`: the first order of
minimal price (`none` on the empty list, where Python raises). -/
def minByPrice : List StoredOrder → Option StoredOrder
  | [] => none
  | o :: os => some (os.foldl (fun b x => if x.price < b.price then x else b) o)

/-- Python `max(orders, key=lambda x: x["price"])`: the first order of
maximal price (`none` on the empty list, where Python raises). -/
def maxByPrice : List StoredOrder → Option StoredOrder
  | [] => none
  | o :: os => some (os.foldl (fun b x => if b.price < x.price then x else b) o)

/-- The type ids present on both the sell side and the buy side
(`set(sell_by_type) & set(buy_by_type)`). -/
def commonTypes (sell_orders buy_orders : List StoredOrder) : List Int :=
  ((sell_orders.map fun o => o.type_id).dedup).filter fun t =>
    buy_orders.any fun o => decide (o.type_id = t)

/-- The body of the per-commodity `try` block of `find_arbitrage`:
`none` models the `except` path, reached when a side is empty (`min` or
`max` on an empty list raises) or when the best sell price is zero
(`margin = unit_profit / sell_price` raises `ZeroDivisionError`). -/
def processType (stations : List StationDoc) (items : List ItemDoc)
    (sell_orders buy_orders : List StoredOrder) (type_id : Int) : Option Opportunity :=
  match minByPrice (sell_orders.filter fun o => decide (o.type_id = type_id)),
        maxByPrice (buy_orders.filter fun o => decide (o.type_id = type_id)) with
  | some best_sell, some best_buy =>
      let sell_price := best_sell.price
      let buy_price := best_buy.price
      if sell_price = 0 then none
      else
        let volume := min best_sell.volume_remain best_buy.volume_remain
        let proceeds_per_unit := buy_price * (1 - BROKER_FEE - SALES_TAX)
        let unit_profit := proceeds_per_unit - sell_price
        let total_profit := unit_profit * (volume : ℚ)
        let margin := unit_profit / sell_price
        let isk_per_minute := total_profit / HAULING_TIME_MINUTES
        some
          { item := get_item_name items type_id
            source_station := get_station_data stations best_sell.location_id
            dest_station := get_station_data stations best_buy.location_id
            buy_price := round2 sell_price
            sell_price := round2 buy_price
            volume := volume
            unit_profit := round2 unit_profit
            total_profit := round2 total_profit
            margin := margin
            isk_per_minute := round2 isk_per_minute }
  | _, _ => none

/-- `find_arbitrage` of `app.py`.  The store, stations and items
collections and the current time are explicit arguments; the Python
set-intersection iteration over common type ids is embedded in sell-side
first-appearance order (the source order is an unspecified hash order). -/
def find_arbitrage (store : List StoredOrder) (stations : List StationDoc)
    (items : List ItemDoc) (now : Int)
    (source_station dest_station : Option Int) : List Opportunity :=
  let c := cutoff now
  let orders := store.filter (initialMatches c source_station dest_station)
  if orders.isEmpty then []
  else
    let sell_orders := store.filter (sellMatches c source_station)
    let buy_orders := store.filter (buyMatches c dest_station)
    (commonTypes sell_orders buy_orders).filterMap
      (processType stations items sell_orders buy_orders)

end App

/-! Concrete sample data used by counterexamples and witnesses. -/

/-- A raw order as page 1 of a region fetch returns it. -/
def rawA : RawOrder :=
  { order_id := 100, location_id := 61000001, type_id := 34,
    is_buy_order := false, price := 5, volume_remain := 10 }

/-- A second raw order, living on a page that will fail to fetch. -/
def rawB : RawOrder :=
  { order_id := 200, location_id := 61000002, type_id := 35,
    is_buy_order := true, price := 7, volume_remain := 4 }

/-- A stored order of region 1 that the incoming snapshot still contains. -/
def storedA : StoredOrder := FetchData.stampOrder 1 0 rawA

/-- A stored order of region 1 that the incoming partial snapshot lacks. -/
def storedB : StoredOrder :=
  { order_id := 101, region_id := 1, location_id := 61000001, type_id := 35,
    is_buy_order := true, price := 6, volume_remain := 2, last_updated := 0 }

/-- The prior store state for the partial-failure scenario: two orders of
region 1, both stale at the probe time. -/
def staleStore : List StoredOrder := [storedA, storedB]

/-- A market API whose page 1 succeeds with one order and advertises 3
pages, and whose page 2 returns a server error. -/
def partialApi : Nat → FetchData.PageResponse := fun p =>
  if p = 1 then { status := 200, batch := [rawA], xPages := some 3 }
  else { status := 500, batch := [], xPages := some 3 }

/-- A market API whose page 2 fails although it carries a non-empty batch
and an advertised total of 5 pages. -/
def failMidApi : Nat → FetchData.PageResponse := fun p =>
  if p = 1 then { status := 200, batch := [rawA], xPages := some 5 }
  else { status := 500, batch := [rawB], xPages := some 5 }

/-- A mock market API that returns an empty page on request 2. -/
def emptyPageApi : Nat → FetchData.PageResponse := fun p =>
  if p = 1 then { status := 200, batch := [rawA], xPages := some 3 }
  else { status := 200, batch := [], xPages := some 3 }

/-- A reference API that always succeeds with the name `Tritanium`. -/
def refApiTrit : Int → FetchData.RefResp := fun _ =>
  { status := 200, name := some "Tritanium", security := none }

/-- A reference API that always fails with a server error. -/
def refApiDown : Int → FetchData.RefResp := fun _ =>
  { status := 500, name := none, security := none }

/-- The four-order store of the arbitrage correctness test: two sell
orders (price 10 and 12) and two buy orders (price 20 and 18) of one
commodity, all fresh at probe time 600000000. -/
def c4Store : List StoredOrder :=
  [{ order_id := 1001, region_id := 10000002, location_id := 61000001,
     type_id := 34, is_buy_order := false, price := 10, volume_remain := 5,
     last_updated := 0 },
   { order_id := 1002, region_id := 10000002, location_id := 61000001,
     type_id := 34, is_buy_order := false, price := 12, volume_remain := 3,
     last_updated := 0 },
   { order_id := 1003, region_id := 10000002, location_id := 61000002,
     type_id := 34, is_buy_order := true, price := 20, volume_remain := 2,
     last_updated := 0 },
   { order_id := 1004, region_id := 10000002, location_id := 61000002,
     type_id := 34, is_buy_order := true, price := 18, volume_remain := 10,
     last_updated := 0 }]

/-- A store whose only order is stale at probe time 700000000 for the
app-side cutoff of 10000 minutes. -/
def staleAppStore : List StoredOrder :=
  [{ order_id := 2001, region_id := 10000002, location_id := 61000001,
     type_id := 34, is_buy_order := false, price := 10, volume_remain := 5,
     last_updated := 99999999 }]

/-- A store with two commodities on both sides, one of whose best sell
price is zero (its margin computation divides by zero). -/
def zeroPriceStore : List StoredOrder :=
  [{ order_id := 3001, region_id := 10000002, location_id := 61000001,
     type_id := 40, is_buy_order := false, price := 0, volume_remain := 5,
     last_updated := 0 },
   { order_id := 3002, region_id := 10000002, location_id := 61000002,
     type_id := 40, is_buy_order := true, price := 20, volume_remain := 2,
     last_updated := 0 },
   { order_id := 3003, region_id := 10000002, location_id := 61000001,
     type_id := 41, is_buy_order := false, price := 10, volume_remain := 5,
     last_updated := 0 },
   { order_id := 3004, region_id := 10000002, location_id := 61000002,
     type_id := 41, is_buy_order := true, price := 20, volume_remain := 2,
     last_updated := 0 }]

/-! Helper lemmas about the upsert embedding and the reconcile step. -/

namespace FetchData

lemma mem_updateFirst {so r : StoredOrder} :
    ∀ {st : List StoredOrder}, r ∈ updateFirst st so → r = so ∨ r ∈ st := by
  intro st
  induction st with
  | nil =>
    intro hr
    simp only [updateFirst, List.mem_singleton] at hr
    exact Or.inl hr
  | cons d ds ih =>
    intro hr
    by_cases h : d.order_id = so.order_id
    · simp only [updateFirst, if_pos h, List.mem_cons] at hr
      rcases hr with h1 | h1
      · exact Or.inl h1
      · exact Or.inr (List.mem_cons_of_mem _ h1)
    · simp only [updateFirst, if_neg h, List.mem_cons] at hr
      rcases hr with h1 | h1
      · exact Or.inr (by simp [h1])
      · rcases ih h1 with h2 | h2
        · exact Or.inl h2
        · exact Or.inr (List.mem_cons_of_mem _ h2)

lemma self_mem_updateFirst (so : StoredOrder) :
    ∀ st : List StoredOrder, so ∈ updateFirst st so := by
  intro st
  induction st with
  | nil => simp [updateFirst]
  | cons d ds ih =>
    by_cases h : d.order_id = so.order_id
    · simp [updateFirst, if_pos h]
    · simp only [updateFirst, if_neg h, List.mem_cons]
      exact Or.inr ih

lemma mem_updateFirst_of_ne {so r : StoredOrder} (hne : r.order_id ≠ so.order_id) :
    ∀ {st : List StoredOrder}, r ∈ st → r ∈ updateFirst st so := by
  intro st
  induction st with
  | nil => intro h; exact absurd h (List.not_mem_nil r)
  | cons d ds ih =>
    intro hr
    rcases List.mem_cons.mp hr with h1 | h1
    · by_cases h : d.order_id = so.order_id
      · exact absurd (by rw [h1]; exact h) hne
      · simp [updateFirst, if_neg h, h1]
    · by_cases h : d.order_id = so.order_id
      · simp only [updateFirst, if_pos h, List.mem_cons]
        exact Or.inr h1
      · simp only [updateFirst, if_neg h, List.mem_cons]
        exact Or.inr (ih h1)

lemma mem_updateFirst_or (so : StoredOrder) {r : StoredOrder}
    {st : List StoredOrder} (hr : r ∈ st) :
    r ∈ updateFirst st so ∨ r.order_id = so.order_id := by
  by_cases h : r.order_id = so.order_id
  · exact Or.inr h
  · exact Or.inl (mem_updateFirst_of_ne h hr)

lemma mem_foldl_updateFirst {r : StoredOrder} :
    ∀ (ss st : List StoredOrder),
      r ∈ ss.foldl updateFirst st → r ∈ st ∨ r ∈ ss := by
  intro ss
  induction ss with
  | nil => intro st h; exact Or.inl h
  | cons a ss ih =>
    intro st h
    rcases ih (updateFirst st a) h with h1 | h1
    · rcases mem_updateFirst h1 with h2 | h2
      · exact Or.inr (by simp [h2])
      · exact Or.inl h2
    · exact Or.inr (List.mem_cons_of_mem _ h1)

lemma exists_id_updateFirst (P : StoredOrder → Prop) {st : List StoredOrder}
    {so : StoredOrder} {i : Int} (hso : P so)
    (h : ∃ r ∈ st, r.order_id = i ∧ P r) :
    ∃ r ∈ updateFirst st so, r.order_id = i ∧ P r := by
  obtain ⟨r, hr, hid, hP⟩ := h
  rcases mem_updateFirst_or so hr with h1 | h1
  · exact ⟨r, h1, hid, hP⟩
  · exact ⟨so, self_mem_updateFirst so st, by rw [← h1]; exact hid, hso⟩

lemma exists_id_foldl (P : StoredOrder → Prop) :
    ∀ (ss st : List StoredOrder) (i : Int),
      (∀ s ∈ ss, P s) → (∃ r ∈ st, r.order_id = i ∧ P r) →
      ∃ r ∈ ss.foldl updateFirst st, r.order_id = i ∧ P r := by
  intro ss
  induction ss with
  | nil => intro st i _ h; exact h
  | cons a ss ih =>
    intro st i hP h
    exact ih (updateFirst st a) i (fun s hs => hP s (List.mem_cons_of_mem _ hs))
      (exists_id_updateFirst P (hP a (List.mem_cons_self a ss)) h)

lemma exists_of_mem_foldl (P : StoredOrder → Prop) :
    ∀ (ss st : List StoredOrder),
      (∀ s ∈ ss, P s) → ∀ a ∈ ss,
      ∃ r ∈ ss.foldl updateFirst st, r.order_id = a.order_id ∧ P r := by
  intro ss
  induction ss with
  | nil => intro st _ a ha; exact absurd ha (List.not_mem_nil a)
  | cons b ss ih =>
    intro st hP a ha
    rcases List.mem_cons.mp ha with rfl | h1
    · exact exists_id_foldl P ss (updateFirst st a) a.order_id
        (fun s hs => hP s (List.mem_cons_of_mem _ hs))
        ⟨a, self_mem_updateFirst a st, rfl, hP a (List.mem_cons_self a ss)⟩
    · exact ih (updateFirst st b) (fun s hs => hP s (List.mem_cons_of_mem _ hs)) a h1

lemma save_eq (region_id : Int) (orders : List RawOrder) (now : Int)
    (store : List StoredOrder) :
    save_orders_to_cache region_id orders now store =
      (orders.map (stampOrder region_id now)).foldl updateFirst
        (store.filter fun o => decide (o.order_id ∉
          (((store.filter fun o2 => decide (o2.region_id = region_id)).map
              fun o2 => o2.order_id).filter
            fun i => decide (i ∉ orders.map fun o3 => o3.order_id)))) := rfl

lemma save_region_mem (region_id : Int) (orders : List RawOrder) (now : Int)
    (store : List StoredOrder) (i : Int) :
    (∃ r ∈ save_orders_to_cache region_id orders now store,
        r.order_id = i ∧ r.region_id = region_id) ↔
      i ∈ orders.map fun o => o.order_id := by
  rw [save_eq]
  set order_ids := orders.map fun o => o.order_id with h_oids
  set outdated := (((store.filter fun o2 => decide (o2.region_id = region_id)).map
      fun o2 => o2.order_id).filter fun j => decide (j ∉ order_ids)) with h_out
  set store1 := store.filter fun o => decide (o.order_id ∉ outdated) with h_st1
  constructor
  · rintro ⟨r, hr, hid, hreg⟩
    rcases mem_foldl_updateFirst _ _ hr with h1 | h1
    · by_contra hni
      have hrstore : r ∈ store ∧ decide (r.order_id ∉ outdated) = true :=
        List.mem_filter.mp h1
      have hex : r.order_id ∈ (store.filter fun o2 =>
          decide (o2.region_id = region_id)).map fun o2 => o2.order_id :=
        List.mem_map.mpr ⟨r, List.mem_filter.mpr ⟨hrstore.1, by simp [hreg]⟩, rfl⟩
      have hout : r.order_id ∈ outdated := by
        rw [h_out]
        exact List.mem_filter.mpr ⟨hex, by simpa [hid] using hni⟩
      have hnotout := hrstore.2
      simp only [decide_eq_true_eq] at hnotout
      exact hnotout hout
    · rcases List.mem_map.mp h1 with ⟨o, ho, rfl⟩
      exact List.mem_map.mpr ⟨o, ho, hid⟩
  · intro hi
    rcases List.mem_map.mp hi with ⟨o, ho, hoid⟩
    obtain ⟨r, hr, hid, hP⟩ :=
      exists_of_mem_foldl (fun r => r.region_id = region_id)
        (orders.map (stampOrder region_id now)) store1
        (by rintro s hs; rcases List.mem_map.mp hs with ⟨u, _, rfl⟩; rfl)
        (stampOrder region_id now o) (List.mem_map.mpr ⟨o, ho, rfl⟩)
    exact ⟨r, hr, hid.trans hoid, hP⟩

lemma save_stamped_mem (region_id : Int) (orders : List RawOrder) (now : Int)
    (store : List StoredOrder) :
    ∀ o ∈ orders, ∃ r ∈ save_orders_to_cache region_id orders now store,
      r.order_id = o.order_id ∧ r.region_id = region_id ∧ r.last_updated = now := by
  intro o ho
  rw [save_eq]
  obtain ⟨r, hr, hid, hP⟩ :=
    exists_of_mem_foldl (fun r => r.region_id = region_id ∧ r.last_updated = now)
      (orders.map (stampOrder region_id now)) _
      (by rintro s hs; rcases List.mem_map.mp hs with ⟨u, _, rfl⟩; exact ⟨rfl, rfl⟩)
      (stampOrder region_id now o) (List.mem_map.mpr ⟨o, ho, rfl⟩)
  exact ⟨r, hr, hid, hP.1, hP.2⟩

lemma id_mem_of_mem_updateFirst {so r : StoredOrder} {st : List StoredOrder}
    (hr : r ∈ updateFirst st so) :
    r.order_id = so.order_id ∨ r.order_id ∈ st.map fun x => x.order_id := by
  rcases mem_updateFirst hr with h | h
  · exact Or.inl (by rw [h])
  · exact Or.inr (List.mem_map.mpr ⟨r, h, rfl⟩)

lemma nodup_ids_updateFirst (so : StoredOrder) :
    ∀ st : List StoredOrder, (st.map fun o => o.order_id).Nodup →
      ((updateFirst st so).map fun o => o.order_id).Nodup := by
  intro st
  induction st with
  | nil => intro _; simp [updateFirst]
  | cons d ds ih =>
    intro hnd
    simp only [List.map_cons, List.nodup_cons] at hnd
    by_cases h : d.order_id = so.order_id
    · simp only [updateFirst, if_pos h, List.map_cons, List.nodup_cons]
      exact ⟨by rw [← h]; exact hnd.1, hnd.2⟩
    · simp only [updateFirst, if_neg h, List.map_cons, List.nodup_cons]
      refine ⟨?_, ih hnd.2⟩
      intro hmem
      rcases List.mem_map.mp hmem with ⟨x, hx, hxid⟩
      rcases id_mem_of_mem_updateFirst hx with h1 | h1
      · exact h (by rw [← hxid]; exact h1)
      · exact hnd.1 (by rw [← hxid]; exact h1)

lemma updateFirst_eq_self {so : StoredOrder} :
    ∀ {st : List StoredOrder}, (st.map fun o => o.order_id).Nodup → so ∈ st →
      updateFirst st so = st := by
  intro st
  induction st with
  | nil => intro _ h; exact absurd h (List.not_mem_nil so)
  | cons d ds ih =>
    intro hnd hso
    simp only [List.map_cons, List.nodup_cons] at hnd
    rcases List.mem_cons.mp hso with h1 | h1
    · subst h1
      simp [updateFirst]
    · by_cases h : d.order_id = so.order_id
      · exact absurd (by rw [h]; exact List.mem_map.mpr ⟨so, h1, rfl⟩) hnd.1
      · simp only [updateFirst, if_neg h]
        rw [ih hnd.2 h1]

lemma foldl_updateFirst_eq_self :
    ∀ (ss st : List StoredOrder), (st.map fun o => o.order_id).Nodup →
      (∀ s ∈ ss, s ∈ st) → ss.foldl updateFirst st = st := by
  intro ss
  induction ss with
  | nil => intro st _ _; rfl
  | cons a ss ih =>
    intro st hnd hall
    have h1 : updateFirst st a = st :=
      updateFirst_eq_self hnd (hall a (List.mem_cons_self a ss))
    simp only [List.foldl_cons, h1]
    exact ih st hnd (fun s hs => hall s (List.mem_cons_of_mem _ hs))

lemma nodup_ids_foldl :
    ∀ (ss st : List StoredOrder), (st.map fun o => o.order_id).Nodup →
      ((ss.foldl updateFirst st).map fun o => o.order_id).Nodup := by
  intro ss
  induction ss with
  | nil => intro st h; exact h
  | cons a ss ih =>
    intro st h
    exact ih _ (nodup_ids_updateFirst a st h)

lemma mem_foldl_of_ne {r : StoredOrder} :
    ∀ (ss st : List StoredOrder), r ∈ st →
      (∀ s ∈ ss, s.order_id ≠ r.order_id) → r ∈ ss.foldl updateFirst st := by
  intro ss
  induction ss with
  | nil => intro st h _; exact h
  | cons a ss ih =>
    intro st hr hne
    exact ih _
      (mem_updateFirst_of_ne (Ne.symm (hne a (List.mem_cons_self a ss))) hr)
      (fun s hs => hne s (List.mem_cons_of_mem _ hs))

lemma mem_foldl_of_nodup :
    ∀ (ss : List StoredOrder), (ss.map fun o => o.order_id).Nodup →
      ∀ st, ∀ a ∈ ss, a ∈ ss.foldl updateFirst st := by
  intro ss
  induction ss with
  | nil => intro _ st a ha; exact absurd ha (List.not_mem_nil a)
  | cons b ss ih =>
    intro hnd st a ha
    simp only [List.map_cons, List.nodup_cons] at hnd
    rcases List.mem_cons.mp ha with rfl | h1
    · refine mem_foldl_of_ne ss (updateFirst st a) (self_mem_updateFirst a st) ?_
      intro s hs heq
      exact hnd.1 (by rw [← heq]; exact List.mem_map.mpr ⟨s, hs, rfl⟩)
    · exact ih hnd.2 (updateFirst st b) a h1

end FetchData

/-! Claim theorems. -/

/-- C3: after `save_orders_to_cache region orders now store`, an order id
is stored for the region exactly when it occurs in the incoming list, and
every incoming order has been upserted keyed by its order id with the
region id stamped and `last_updated` set to now. -/
theorem c3_reconcile_ids (region_id : Int) (orders : List RawOrder) (now : Int)
    (store : List StoredOrder) :
    (∀ i : Int,
      (∃ r ∈ FetchData.save_orders_to_cache region_id orders now store,
          r.order_id = i ∧ r.region_id = region_id) ↔
        i ∈ orders.map fun o => o.order_id)
    ∧ ∀ o ∈ orders,
        ∃ r ∈ FetchData.save_orders_to_cache region_id orders now store,
          r.order_id = o.order_id ∧ r.region_id = region_id ∧ r.last_updated = now :=
  ⟨fun i => FetchData.save_region_mem region_id orders now store i,
   FetchData.save_stamped_mem region_id orders now store⟩

/-- Witness for C3: reconciling region 1 with the single incoming order
`rawA` stamps it into the store, and the vanished id 101 is gone. -/
theorem c3_reconcile_ids_witness :
    (∃ r ∈ FetchData.save_orders_to_cache 1 [rawA] 5 staleStore,
        r.order_id = rawA.order_id ∧ r.region_id = 1 ∧ r.last_updated = 5)
    ∧ ¬ (∃ r ∈ FetchData.save_orders_to_cache 1 [rawA] 5 staleStore,
        r.order_id = 101 ∧ r.region_id = 1) :=
  ⟨(c3_reconcile_ids 1 [rawA] 5 staleStore).2 rawA (by simp),
   fun h => by
     have h2 := ((c3_reconcile_ids 1 [rawA] 5 staleStore).1 101).mp h
     exact absurd h2 (by decide)⟩

/-- C6: reconciliation is idempotent — running the reconcile twice with
the same `now` leaves the store as running it once, under the
unique-`order_id` invariants that the store (unique Mongo index) and a
fetched snapshot maintain. -/
theorem c6_reconcile_idempotent (region_id : Int) (orders : List RawOrder)
    (now : Int) (store : List StoredOrder)
    (hstore : (store.map fun o => o.order_id).Nodup)
    (hinc : (orders.map fun o => o.order_id).Nodup) :
    FetchData.save_orders_to_cache region_id orders now
        (FetchData.save_orders_to_cache region_id orders now store) =
      FetchData.save_orders_to_cache region_id orders now store := by
  have hmapids : ((orders.map (FetchData.stampOrder region_id now)).map
      fun o => o.order_id) = orders.map fun o => o.order_id := by
    rw [List.map_map]
    rfl
  have hstnodup : ((orders.map (FetchData.stampOrder region_id now)).map
      fun o => o.order_id).Nodup := by rw [hmapids]; exact hinc
  have hnd1 : ((store.filter fun o => decide (o.order_id ∉
      (((store.filter fun o2 => decide (o2.region_id = region_id)).map
          fun o2 => o2.order_id).filter
        fun i => decide (i ∉ orders.map fun o3 => o3.order_id)))).map
      fun o => o.order_id).Nodup := by
    refine List.Nodup.sublist ?_ hstore
    exact List.Sublist.map _ (List.filter_sublist store)
  have hs1nodup : ((FetchData.save_orders_to_cache region_id orders now store).map
      fun o => o.order_id).Nodup := by
    rw [FetchData.save_eq]
    exact FetchData.nodup_ids_foldl _ _ hnd1
  have hs1mem : ∀ s ∈ orders.map (FetchData.stampOrder region_id now),
      s ∈ FetchData.save_orders_to_cache region_id orders now store := by
    intro s hs
    rw [FetchData.save_eq]
    exact FetchData.mem_foldl_of_nodup _ hstnodup _ s hs
  rw [FetchData.save_eq region_id orders now
      (FetchData.save_orders_to_cache region_id orders now store)]
  have hout2 : ((((FetchData.save_orders_to_cache region_id orders now store).filter
      fun o2 => decide (o2.region_id = region_id)).map fun o2 => o2.order_id).filter
        fun i => decide (i ∉ orders.map fun o3 => o3.order_id)) = [] := by
    rw [List.filter_eq_nil_iff]
    intro j hj
    rcases List.mem_map.mp hj with ⟨r, hrf, rfl⟩
    have hr2 := List.mem_filter.mp hrf
    have hreg : r.region_id = region_id := by
      have h3 := hr2.2
      simpa using h3
    have hjin : r.order_id ∈ orders.map fun o => o.order_id :=
      (FetchData.save_region_mem region_id orders now store r.order_id).mp
        ⟨r, hr2.1, rfl, hreg⟩
    simp [hjin]
  rw [hout2]
  have hfilt : ((FetchData.save_orders_to_cache region_id orders now store).filter
      fun o => decide (o.order_id ∉ ([] : List Int))) =
      FetchData.save_orders_to_cache region_id orders now store := by
    simp
  rw [hfilt]
  exact FetchData.foldl_updateFirst_eq_self _ _ hs1nodup hs1mem

/-- Witness for C6: idempotence evaluated on a concrete store and
snapshot with duplicate-free order ids. -/
theorem c6_reconcile_idempotent_witness :
    ((staleStore.map fun o => o.order_id).Nodup ∧
      ((([rawA] : List RawOrder).map fun o => o.order_id)).Nodup) ∧
    FetchData.save_orders_to_cache 2 [rawA] 7
        (FetchData.save_orders_to_cache 2 [rawA] 7 staleStore) =
      FetchData.save_orders_to_cache 2 [rawA] 7 staleStore :=
  ⟨⟨by decide, by decide⟩,
   c6_reconcile_idempotent 2 [rawA] 7 staleStore (by decide) (by decide)⟩

/-- C1 counterexample: the cache is stale, page 1 of an advertised 3
succeeds with order 100, page 2 fails — yet `fetch_all_orders` reconciles
the partial page set into the store: the prior region-1 order 101 is
evicted and the stored state changes, instead of being preserved. -/
theorem c1_counterexample :
    FetchData.fetch_all_orders 10 partialApi 1 10000000 staleStore =
      some (FetchData.FetchResult.fetched [rawA],
            [FetchData.stampOrder 1 10000000 rawA])
    ∧ (partialApi 2).status ≠ 200
    ∧ FetchData.fetchLoop partialApi 10 1 [] =
        some ([rawA], FetchData.StopReason.fetchFail, 2)
    ∧ (∃ r ∈ staleStore, r.order_id = 101 ∧ r.region_id = 1)
    ∧ ¬ ∃ r ∈ [FetchData.stampOrder 1 10000000 rawA],
          r.order_id = 101 ∧ r.region_id = 1 := by
  decide

/-- C1 (amended): when the cache is stale and the page loop stops — for
any stop reason, a mid-pagination fetch failure included — the
accumulated partial page set IS passed to `save_orders_to_cache` and
reconciled into the store, so the prior state of the region is not
preserved whenever the partial set differs from it. -/
theorem c1_partial_pages_reconciled (fuel : Nat)
    (api : Nat → FetchData.PageResponse) (region_id now : Int)
    (store : List StoredOrder) (orders : List RawOrder)
    (reason : FetchData.StopReason) (page : Nat)
    (hcache : FetchData.load_cached_orders store region_id now = none)
    (hloop : FetchData.fetchLoop api fuel 1 [] = some (orders, reason, page)) :
    FetchData.fetch_all_orders fuel api region_id now store =
      some (FetchData.FetchResult.fetched orders,
            FetchData.save_orders_to_cache region_id orders now store) := by
  unfold FetchData.fetch_all_orders
  rw [hcache, hloop]

namespace FetchData

lemma fetchLoop_stops_aux (api : Nat → PageResponse) (N : Nat)
    (hstop : ¬ contCond api N) :
    ∀ fuel k acc, 1 ≤ k → k ≤ N → N - k < fuel →
      (∀ p, k ≤ p → p < N → contCond api p) →
      fetchLoop api fuel k acc =
        some (acc ++ (if (api N).status = 200 ∧ (api N).batch ≠ []
                      then batchesRange api k (N - k + 1)
                      else batchesRange api k (N - k)),
              stopReason api N, N) := by
  intro fuel
  induction fuel with
  | zero => intro k acc _ _ hlt _; omega
  | succ fuel ih =>
    intro k acc hk1 hkN hlt hcont
    by_cases hkeq : k = N
    · subst hkeq
      have hkk : k - k = 0 := Nat.sub_self k
      rcases Decidable.em ((api k).status = 200) with hs | hs
      · rcases Decidable.em ((api k).batch = []) with hb | hb
        · simp [fetchLoop, stopReason, hs, hb, hkk, batchesRange]
        · have hx : ∀ t, (api k).xPages = some t → t ≤ k := by
            intro t ht
            by_contra hlt2
            exact hstop ⟨hs, hb, t, ht, by omega⟩
          rcases hxe : (api k).xPages with _ | t
          · simp [fetchLoop, stopReason, hs, hb, hxe, hkk, batchesRange,
              List.isEmpty_iff]
          · have htk : t ≤ k := hx t hxe
            simp [fetchLoop, stopReason, hs, hb, hxe, htk, hkk, batchesRange,
              List.isEmpty_iff]
      · simp [fetchLoop, stopReason, hs, hkk, batchesRange]
    · have hklt : k < N := lt_of_le_of_ne hkN hkeq
      obtain ⟨hs, hb, t, hx, hpt⟩ := hcont k le_rfl hklt
      have hnle : ¬ t ≤ k := by omega
      have hstep : fetchLoop api (fuel + 1) k acc =
          fetchLoop api fuel (k + 1) (acc ++ (api k).batch) := by
        simp [fetchLoop, hs, hx, hnle, hb, List.isEmpty_iff]
      rw [hstep, ih (k + 1) (acc ++ (api k).batch) (by omega) (by omega) (by omega)
        (fun p hp1 hp2 => hcont p (by omega) hp2)]
      have hacc : (acc ++ (api k).batch) ++
          (if (api N).status = 200 ∧ (api N).batch ≠ []
           then batchesRange api (k + 1) (N - (k + 1) + 1)
           else batchesRange api (k + 1) (N - (k + 1))) =
          acc ++ (if (api N).status = 200 ∧ (api N).batch ≠ []
                  then batchesRange api k (N - k + 1)
                  else batchesRange api k (N - k)) := by
        rw [List.append_assoc]
        congr 1
        by_cases hC : (api N).status = 200 ∧ (api N).batch ≠ []
        · rw [if_pos hC, if_pos hC]
          have he : N - k + 1 = (N - (k + 1) + 1) + 1 := by omega
          rw [he]
          conv_rhs => rw [batchesRange]
        · rw [if_neg hC, if_neg hC]
          have he : N - k = (N - (k + 1)) + 1 := by omega
          rw [he]
          conv_rhs => rw [batchesRange]
      rw [hacc]

end FetchData

/-- C5 counterexample: against `failMidApi` the loop stops fetching at
page 2 although page 2 carries a non-empty batch, the total-page signal
is present, and the page index is below the advertised total of 5 — the
stop is caused by the non-success response, a cause that the list after
"stops fetching exactly when" in the claim omits. -/
theorem c5_counterexample :
    FetchData.fetchLoop failMidApi 10 1 [] =
      some ([rawA], FetchData.StopReason.fetchFail, 2)
    ∧ (failMidApi 2).batch ≠ []
    ∧ (failMidApi 2).xPages = some 5
    ∧ ¬ (5 : Nat) ≤ 2 := by
  decide

/-- C5 (amended): the page loop stops at the first page where the
continue condition fails — an empty batch, a page index that reached the
advertised total, an absent total-page signal, or (the case the claim
omits) a non-success response — and returns the orders accumulated from
the successfully fetched pages; when the stop page itself was fetched
successfully the stop reason is one of the three conditions the claim
lists. -/
theorem c5_pagination_stops (api : Nat → FetchData.PageResponse) (N fuel : Nat)
    (h1 : 1 ≤ N) (hf : N ≤ fuel)
    (hcont : ∀ p, 1 ≤ p → p < N → FetchData.contCond api p)
    (hstop : ¬ FetchData.contCond api N) :
    FetchData.fetchLoop api fuel 1 [] =
      some (FetchData.stopAcc api N, FetchData.stopReason api N, N)
    ∧ ((api N).status = 200 →
        FetchData.stopReason api N = FetchData.StopReason.emptyBatch ∨
        FetchData.stopReason api N = FetchData.StopReason.reachedTotal ∨
        FetchData.stopReason api N = FetchData.StopReason.noTotal) := by
  constructor
  · have h := FetchData.fetchLoop_stops_aux api N hstop fuel 1 [] le_rfl h1
      (by omega) hcont
    rw [h]
    unfold FetchData.stopAcc
    have hN1 : N - 1 + 1 = N := by omega
    rw [hN1]
    simp
  · intro hs
    unfold FetchData.stopReason
    rw [if_neg (by simp [hs])]
    by_cases hb : (api N).batch.isEmpty
    · rw [if_pos hb]
      exact Or.inl rfl
    · rw [if_neg hb]
      rcases hxe : (api N).xPages with _ | t
      · simp [hxe]
      · simp [hxe]

/-- Witness for the amended C5, on the mock API whose page 2 is empty:
the loop stops at page 2 with the empty-batch reason and yields the
orders of page 1. -/
theorem c5_pagination_stops_witness :
    (FetchData.fetchLoop emptyPageApi 5 1 [] =
        some (FetchData.stopAcc emptyPageApi 2,
              FetchData.stopReason emptyPageApi 2, 2)
      ∧ ((emptyPageApi 2).status = 200 →
          FetchData.stopReason emptyPageApi 2 = FetchData.StopReason.emptyBatch ∨
          FetchData.stopReason emptyPageApi 2 = FetchData.StopReason.reachedTotal ∨
          FetchData.stopReason emptyPageApi 2 = FetchData.StopReason.noTotal))
    ∧ FetchData.stopAcc emptyPageApi 2 = [rawA]
    ∧ FetchData.stopReason emptyPageApi 2 = FetchData.StopReason.emptyBatch :=
  ⟨c5_pagination_stops emptyPageApi 2 5 (by omega) (by omega)
      (fun p hp1 hp2 => by
        have hp : p = 1 := by omega
        subst hp
        exact ⟨by decide, by decide, 3, by decide, by omega⟩)
      (fun hc => hc.2.1 (by decide)),
   by decide, by decide⟩

/-- Witness for the amended C1, on the concrete failing-page scenario. -/
theorem c1_partial_pages_reconciled_witness :
    (FetchData.load_cached_orders staleStore 1 10000000 = none ∧
      FetchData.fetchLoop partialApi 10 1 [] =
        some ([rawA], FetchData.StopReason.fetchFail, 2)) ∧
    FetchData.fetch_all_orders 10 partialApi 1 10000000 staleStore =
      some (FetchData.FetchResult.fetched [rawA],
            FetchData.save_orders_to_cache 1 [rawA] 10000000 staleStore) :=
  ⟨⟨by decide, by decide⟩,
   c1_partial_pages_reconciled 10 partialApi 1 10000000 staleStore [rawA]
     FetchData.StopReason.fetchFail 2 (by decide) (by decide)⟩

/-- C4: on the four-order one-commodity store, with the configured fees,
`find_arbitrage` selects the 10-priced sell order and the 20-priced buy
order (reported as `buy_price` 10 and `sell_price` 20), and reports
volume 2, unit profit 9.1, total profit 18.2 and margin 0.91; the
proceeds per unit are 20 × (1 − BROKER_FEE − SALES_TAX) = 19.1. -/
theorem c4_arbitrage_numbers :
    App.find_arbitrage c4Store [] [] 600000000 none none =
      [{ item := "Type 34",
         source_station := { name := "61000001", security := SecField.unknown },
         dest_station := { name := "61000002", security := SecField.unknown },
         buy_price := 10, sell_price := 20, volume := 2,
         unit_profit := 91 / 10, total_profit := 91 / 5, margin := 91 / 100,
         isk_per_minute := 121 / 100 }]
    ∧ (20 : ℚ) * (1 - App.BROKER_FEE - App.SALES_TAX) = 191 / 10 := by
  constructor
  · norm_num [App.find_arbitrage, App.initialMatches, App.sellMatches,
      App.buyMatches, App.commonTypes, App.processType, App.minByPrice,
      App.maxByPrice, App.get_item_name, App.get_station_data, App.cutoff,
      App.CACHE_MINUTES, App.BROKER_FEE, App.SALES_TAX,
      App.HAULING_TIME_MINUTES, c4Store, round2, roundHalfEven, ratFloor,
      List.filterMap_cons]
    decide
  · norm_num [App.BROKER_FEE, App.SALES_TAX]

/-- C7: if no stored order passes the staleness cutoff combined with the
location filter of the initial query, `find_arbitrage` returns the empty
list (and, being a total function, raises no error). -/
theorem c7_empty_result (store : List StoredOrder) (stations : List StationDoc)
    (items : List ItemDoc) (now : Int) (source_station dest_station : Option Int)
    (h : store.filter
      (App.initialMatches (App.cutoff now) source_station dest_station) = []) :
    App.find_arbitrage store stations items now source_station dest_station = [] := by
  simp only [App.find_arbitrage]
  rw [h]
  rfl

/-- Witness for C7: a store whose only order is one millisecond too old
at the probe time yields the empty result. -/
theorem c7_empty_result_witness :
    staleAppStore.filter (App.initialMatches (App.cutoff 700000000) none none) = []
    ∧ App.find_arbitrage staleAppStore [] [] 700000000 none none = [] :=
  ⟨by decide, c7_empty_result staleAppStore [] [] 700000000 none none (by decide)⟩

/-- C8: when the initial query is non-empty, the output of
`find_arbitrage` is the per-commodity computation filter-mapped over the
common commodities — a commodity whose computation hits the numeric error
contributes `none` and is omitted while every other commodity is still
processed and returned — and, for a common commodity, the computation
yields `none` exactly when its best sell price is zero (the division by
zero in the margin). -/
theorem c8_zero_price_skipped (store : List StoredOrder)
    (stations : List StationDoc) (items : List ItemDoc) (now : Int)
    (source_station dest_station : Option Int)
    (h : store.filter
      (App.initialMatches (App.cutoff now) source_station dest_station) ≠ []) :
    App.find_arbitrage store stations items now source_station dest_station =
      (App.commonTypes
          (store.filter (App.sellMatches (App.cutoff now) source_station))
          (store.filter (App.buyMatches (App.cutoff now) dest_station))).filterMap
        (App.processType stations items
          (store.filter (App.sellMatches (App.cutoff now) source_station))
          (store.filter (App.buyMatches (App.cutoff now) dest_station)))
    ∧ ∀ t ∈ App.commonTypes
          (store.filter (App.sellMatches (App.cutoff now) source_station))
          (store.filter (App.buyMatches (App.cutoff now) dest_station)),
        ∀ bs, App.minByPrice
            ((store.filter (App.sellMatches (App.cutoff now) source_station)).filter
              fun o => decide (o.type_id = t)) = some bs →
          (App.processType stations items
              (store.filter (App.sellMatches (App.cutoff now) source_station))
              (store.filter (App.buyMatches (App.cutoff now) dest_station)) t = none
            ↔ bs.price = 0) := by
  have hne : ((store.filter
      (App.initialMatches (App.cutoff now) source_station dest_station)).isEmpty) ≠ true := by
    simpa [List.isEmpty_iff] using h
  constructor
  · simp only [App.find_arbitrage]
    rw [if_neg hne]
  · intro t ht bs hbs
    have ht2 := ht
    simp only [App.commonTypes, List.mem_filter, List.mem_dedup, List.any_eq_true,
      decide_eq_true_eq] at ht2
    obtain ⟨-, b, hb, hbt⟩ := ht2
    have hbmem : b ∈ (store.filter (App.buyMatches (App.cutoff now) dest_station)).filter
        fun o => decide (o.type_id = t) :=
      List.mem_filter.mpr ⟨List.mem_filter.mpr hb, by simp [hbt]⟩
    have hbne : (store.filter (App.buyMatches (App.cutoff now) dest_station)).filter
        (fun o => decide (o.type_id = t)) ≠ [] := List.ne_nil_of_mem hbmem
    obtain ⟨bb, hbb⟩ : ∃ bb, App.maxByPrice
        ((store.filter (App.buyMatches (App.cutoff now) dest_station)).filter
          fun o => decide (o.type_id = t)) = some bb := by
      cases hl : (store.filter (App.buyMatches (App.cutoff now) dest_station)).filter
          (fun o => decide (o.type_id = t)) with
      | nil => exact absurd hl hbne
      | cons x xs => exact ⟨_, rfl⟩
    unfold App.processType
    rw [hbs, hbb]
    by_cases hz : bs.price = 0
    · simp [hz]
    · simp [hz]

/-- Witness for C8: on the two-commodity store where commodity 40 has a
zero best sell price, the equation and the skip condition hold; only
commodity 41 appears in the output. -/
theorem c8_zero_price_skipped_witness :
    (zeroPriceStore.filter (App.initialMatches (App.cutoff 600000000) none none) ≠ [])
    ∧ (App.find_arbitrage zeroPriceStore [] [] 600000000 none none =
        (App.commonTypes
            (zeroPriceStore.filter (App.sellMatches (App.cutoff 600000000) none))
            (zeroPriceStore.filter (App.buyMatches (App.cutoff 600000000) none))).filterMap
          (App.processType [] []
            (zeroPriceStore.filter (App.sellMatches (App.cutoff 600000000) none))
            (zeroPriceStore.filter (App.buyMatches (App.cutoff 600000000) none)))
      ∧ ∀ t ∈ App.commonTypes
            (zeroPriceStore.filter (App.sellMatches (App.cutoff 600000000) none))
            (zeroPriceStore.filter (App.buyMatches (App.cutoff 600000000) none)),
          ∀ bs, App.minByPrice
              ((zeroPriceStore.filter (App.sellMatches (App.cutoff 600000000) none)).filter
                fun o => decide (o.type_id = t)) = some bs →
            (App.processType [] []
                (zeroPriceStore.filter (App.sellMatches (App.cutoff 600000000) none))
                (zeroPriceStore.filter (App.buyMatches (App.cutoff 600000000) none)) t = none
              ↔ bs.price = 0))
    ∧ (App.find_arbitrage zeroPriceStore [] [] 600000000 none none).map
        (fun o => o.item) = ["Type 41"] :=
  ⟨by decide,
   c8_zero_price_skipped zeroPriceStore [] [] 600000000 none none (by decide),
   by decide⟩

/-- C9: the staleness filter is inclusive at the boundary in both the
cache loader and the arbitrage-engine queries: an order whose
`last_updated` equals the cutoff exactly is included in the query result,
and an order one millisecond older is excluded from all of them. -/
theorem c9_cutoff_boundary (store : List StoredOrder) (region_id now : Int)
    (o : StoredOrder) (hmem : o ∈ store) :
    (o.region_id = region_id → o.last_updated = FetchData.cutoff now →
      ∃ l, FetchData.load_cached_orders store region_id now = some l ∧ o ∈ l)
    ∧ (o.last_updated = FetchData.cutoff now - 1 →
        ∀ l, FetchData.load_cached_orders store region_id now = some l → o ∉ l)
    ∧ (o.last_updated = App.cutoff now →
        o ∈ store.filter (App.initialMatches (App.cutoff now) none none))
    ∧ (o.last_updated = App.cutoff now - 1 →
        ∀ source_station dest_station : Option Int,
          o ∉ store.filter
              (App.initialMatches (App.cutoff now) source_station dest_station)
          ∧ o ∉ store.filter (App.sellMatches (App.cutoff now) source_station)
          ∧ o ∉ store.filter (App.buyMatches (App.cutoff now) dest_station)) := by
  refine ⟨?_, ?_, ?_, ?_⟩
  · intro hreg hlu
    have hof : o ∈ store.filter fun x =>
        decide (x.region_id = region_id) &&
          decide (FetchData.cutoff now ≤ x.last_updated) :=
      List.mem_filter.mpr ⟨hmem, by simp [hreg, hlu]⟩
    refine ⟨_, ?_, hof⟩
    unfold FetchData.load_cached_orders
    rw [if_neg (by simp only [List.isEmpty_iff]; exact List.ne_nil_of_mem hof)]
  · intro hlu l hl
    unfold FetchData.load_cached_orders at hl
    by_cases he : (store.filter fun x =>
        decide (x.region_id = region_id) &&
          decide (FetchData.cutoff now ≤ x.last_updated)).isEmpty
    · rw [if_pos he] at hl
      exact absurd hl (by simp)
    · rw [if_neg he] at hl
      cases hl
      intro hol
      have h2 := (List.mem_filter.mp hol).2
      simp only [Bool.and_eq_true, decide_eq_true_eq] at h2
      have h3 := h2.2
      omega
  · intro hlu
    refine List.mem_filter.mpr ⟨hmem, ?_⟩
    simp [App.initialMatches, hlu]
  · intro hlu source_station dest_station
    refine ⟨?_, ?_, ?_⟩
    · intro hol
      have h2 := (List.mem_filter.mp hol).2
      simp only [App.initialMatches, Bool.and_eq_true, decide_eq_true_eq] at h2
      have h3 := h2.1
      omega
    · intro hol
      have h2 := (List.mem_filter.mp hol).2
      simp only [App.sellMatches, Bool.and_eq_true, decide_eq_true_eq] at h2
      have h3 := h2.1.2
      omega
    · intro hol
      have h2 := (List.mem_filter.mp hol).2
      simp only [App.buyMatches, Bool.and_eq_true, decide_eq_true_eq] at h2
      have h3 := h2.1.2
      omega

/-- Witness for C9: a region-1 order stored exactly at the fetch-side
cutoff is served by the cache loader. -/
theorem c9_cutoff_boundary_witness :
    (storedA ∈ [storedA] ∧ storedA.region_id = 1 ∧
      storedA.last_updated = FetchData.cutoff 1800000) ∧
    ∃ l, FetchData.load_cached_orders [storedA] 1 1800000 = some l ∧ storedA ∈ l :=
  ⟨⟨by decide, by decide, by decide⟩,
   (c9_cutoff_boundary [storedA] 1 1800000 storedA (by decide)).1
     (by decide) (by decide)⟩

/-- C10: with a station filter equal to 0, the initial emptiness-check
query restricts to location 0 (the filter presence is tested with
`is not None`), but the side queries apply no location restriction (the
filter is tested by truthiness and 0 is falsy) — on the sell side for
`source_station = 0` and on the buy side for `dest_station = 0`. -/
theorem c10_zero_station_asymmetry (c : Int) (o : StoredOrder) :
    App.initialMatches c (some 0) none o =
      (decide (c ≤ o.last_updated) && decide (o.location_id = 0))
    ∧ App.initialMatches c none (some 0) o =
      (decide (c ≤ o.last_updated) && decide (o.location_id = 0))
    ∧ App.sellMatches c (some 0) o =
      (!o.is_buy_order && decide (c ≤ o.last_updated))
    ∧ App.buyMatches c (some 0) o =
      (o.is_buy_order && decide (c ≤ o.last_updated)) := by
  refine ⟨rfl, rfl, ?_, ?_⟩
  · simp [App.sellMatches]
  · simp [App.buyMatches]

namespace FetchData

lemma stationUpsert_mem (name : String) (sec : Option ℚ) :
    ∀ (ss : List StationDoc) (sid : Int),
      ∃ d ∈ stationUpsert ss sid name sec,
        d.station_id = sid ∧ d.name = name ∧ d.security = sec := by
  intro ss
  induction ss with
  | nil =>
    intro sid
    exact ⟨⟨sid, name, sec⟩, by simp [stationUpsert], rfl, rfl, rfl⟩
  | cons d ds ih =>
    intro sid
    by_cases h : d.station_id = sid
    · exact ⟨⟨d.station_id, name, sec⟩, by simp [stationUpsert, h], h, rfl, rfl⟩
    · obtain ⟨e, he, h1, h2, h3⟩ := ih sid
      refine ⟨e, ?_, h1, h2, h3⟩
      simp only [stationUpsert, if_neg h, List.mem_cons]
      exact Or.inr he

lemma itemUpsert_mem (name : String) :
    ∀ (ss : List ItemDoc) (tid : Int),
      ∃ d ∈ itemUpsert ss tid name, d.type_id = tid ∧ d.name = name := by
  intro ss
  induction ss with
  | nil =>
    intro tid
    exact ⟨⟨tid, name⟩, by simp [itemUpsert], rfl, rfl⟩
  | cons d ds ih =>
    intro tid
    by_cases h : d.type_id = tid
    · exact ⟨⟨d.type_id, name⟩, by simp [itemUpsert, h], h, rfl⟩
    · obtain ⟨e, he, h1, h2⟩ := ih tid
      refine ⟨e, ?_, h1, h2⟩
      simp only [itemUpsert, if_neg h, List.mem_cons]
      exact Or.inr he

end FetchData

/-- C2 counterexample: the app-side resolvers never call the external
reference API on a miss — fed an id absent from the cache they return the
synthesized placeholder directly and leave the cache unchanged, although
the external API (as the ingestion-side resolver shows on the very same
input) yields the usable name `Tritanium`; so the part of the claim that
says every cache-miss lookup "calls the external reference API, upserts
the result keyed by the id, and returns it" fails for these lookups. -/
theorem c2_counterexample :
    App.get_item_name [] 7 = "Type 7"
    ∧ (FetchData.get_item_name refApiTrit [] 7).1 = "Tritanium"
    ∧ (FetchData.get_item_name refApiTrit [] 7).2.1 = [⟨7, "Tritanium"⟩]
    ∧ App.get_station_data [] 42 = { name := "42", security := SecField.unknown } := by
  decide

/-- C2 (amended): on a cache miss the ingestion-side resolvers
(`get_station_info` and `get_item_name` of `fetch_data.py`) do consult
the external reference API, upsert the fetched result keyed by the id,
and return it, degrading to the synthesized placeholder name (`str(id)`,
or `Type <id>`) instead of raising when the call fails or carries no
name; the app-side resolvers (`get_station_data` and `get_item_name` of
`app.py`) never call the external API — on a miss they return the
placeholder directly and leave the cache unchanged. -/
theorem c2_reference_lookup (api : Int → FetchData.RefResp)
    (stations : List StationDoc) (items : List ItemDoc) (sid tid : Int) :
    (stations.find? (fun d => decide (d.station_id = sid)) = none →
      (FetchData.get_station_info api stations sid).2.2 = true
      ∧ ((api sid).status = 200 → ∀ nm, (api sid).name = some nm →
          (FetchData.get_station_info api stations sid).1 = (nm, (api sid).security)
          ∧ ∃ d ∈ (FetchData.get_station_info api stations sid).2.1,
              d.station_id = sid ∧ d.name = nm ∧ d.security = (api sid).security)
      ∧ ((api sid).status = 200 → (api sid).name = none →
          (FetchData.get_station_info api stations sid).1.1 = toString sid)
      ∧ ((api sid).status ≠ 200 →
          (FetchData.get_station_info api stations sid).1 = (toString sid, none)
          ∧ (FetchData.get_station_info api stations sid).2.1 = stations))
    ∧ (items.find? (fun d => decide (d.type_id = tid)) = none →
      (FetchData.get_item_name api items tid).2.2 = true
      ∧ ((api tid).status = 200 → ∀ nm, (api tid).name = some nm →
          (FetchData.get_item_name api items tid).1 = nm
          ∧ ∃ d ∈ (FetchData.get_item_name api items tid).2.1,
              d.type_id = tid ∧ d.name = nm)
      ∧ ((api tid).status = 200 → (api tid).name = none →
          (FetchData.get_item_name api items tid).1 = "Type " ++ toString tid)
      ∧ ((api tid).status ≠ 200 →
          (FetchData.get_item_name api items tid).1 = "Type " ++ toString tid
          ∧ (FetchData.get_item_name api items tid).2.1 = items))
    ∧ (stations.find? (fun d => decide (d.station_id = sid)) = none →
        App.get_station_data stations sid =
          { name := toString sid, security := SecField.unknown })
    ∧ (items.find? (fun d => decide (d.type_id = tid)) = none →
        App.get_item_name items tid = "Type " ++ toString tid) := by
  refine ⟨?_, ?_, ?_, ?_⟩
  · intro hmiss
    refine ⟨?_, ?_, ?_, ?_⟩
    · unfold FetchData.get_station_info
      rw [hmiss]
      by_cases hs : (api sid).status = 200
      · simp [hs]
      · simp [hs]
    · intro hs nm hnm
      have hrw : FetchData.get_station_info api stations sid =
          ((nm, (api sid).security),
            FetchData.stationUpsert stations sid nm (api sid).security, true) := by
        unfold FetchData.get_station_info
        rw [hmiss]
        simp [hs, hnm]
      rw [hrw]
      exact ⟨rfl, FetchData.stationUpsert_mem nm (api sid).security stations sid⟩
    · intro hs hn
      unfold FetchData.get_station_info
      rw [hmiss]
      simp [hs, hn]
    · intro hs
      have hrw : FetchData.get_station_info api stations sid =
          ((toString sid, none), stations, true) := by
        unfold FetchData.get_station_info
        rw [hmiss]
        simp [hs]
      rw [hrw]
      exact ⟨rfl, rfl⟩
  · intro hmiss
    refine ⟨?_, ?_, ?_, ?_⟩
    · unfold FetchData.get_item_name
      rw [hmiss]
      by_cases hs : (api tid).status = 200
      · simp [hs]
      · simp [hs]
    · intro hs nm hnm
      have hrw : FetchData.get_item_name api items tid =
          (nm, FetchData.itemUpsert items tid nm, true) := by
        unfold FetchData.get_item_name
        rw [hmiss]
        simp [hs, hnm]
      rw [hrw]
      exact ⟨rfl, FetchData.itemUpsert_mem nm items tid⟩
    · intro hs hn
      unfold FetchData.get_item_name
      rw [hmiss]
      simp [hs, hn]
    · intro hs
      have hrw : FetchData.get_item_name api items tid =
          ("Type " ++ toString tid, items, true) := by
        unfold FetchData.get_item_name
        rw [hmiss]
        simp [hs]
      rw [hrw]
      exact ⟨rfl, rfl⟩
  · intro hmiss
    unfold App.get_station_data
    rw [hmiss]
  · intro hmiss
    unfold App.get_item_name
    rw [hmiss]

/-- Witness for the amended C2: a failed external call on a miss yields
the placeholder item name and leaves the items collection unchanged. -/
theorem c2_reference_lookup_witness :
    (([] : List ItemDoc).find? (fun d => decide (d.type_id = 7)) = none ∧
      (refApiDown 7).status ≠ 200) ∧
    ((FetchData.get_item_name refApiDown [] 7).1 = "Type " ++ toString (7 : Int) ∧
      (FetchData.get_item_name refApiDown [] 7).2.1 = []) :=
  ⟨⟨by decide, by decide⟩,
   ((c2_reference_lookup refApiDown [] [] 0 7).2.1 (by decide)).2.2.2 (by decide)⟩
